import Mathlib

/-!
# Expensaver backend: the request handlers of `server.js`

A shallow embedding of the eight Express handlers and of the `authenticateUser`
middleware.  The MySQL store is an explicit state (two tables and their
auto-increment counters) that every handler takes and returns.  The libraries
the handlers call (`jsonwebtoken`, `bcryptjs`), the server clock behind `NOW()`
and the outcome `err` of every `db.query` are inputs of the handlers.

Conventions of the embedding.
* Requests are handled one at a time: a handler runs all of its queries before
  the next request starts.
* SQL `=` on the `email` columns is equality of strings, and the `:id` path
  segment is the number the store compares with the `id` column.
* A table cell holds the literal that was written for the `?` of the
  statement (`undefined` is written as `NULL`).  The `mysql` driver writes an
  object as a list of `key = value` pairs and an array as a comma list; what
  the store makes of such text is spelled out where the statements of the
  source name the columns, and is an input (`Sql`) elsewhere.
* `err = none` says that the store ran the statement.  The store rejects text
  that is no statement (an empty list, a comma list where one value belongs);
  for such text the description of a run leaves the rows of an `UPDATE` as
  they are and writes `NULL` for the cell of an `INSERT`.
* Numbers of a parsed body are given by their exact rational value.
* The body of `POST /register` is taken with fields that are absent or strings.
-/

namespace Expensaver

/-! ## Values of a parsed JSON body -/

/-- A field of `req.body` after `express.json()`: absent (`undefined`), `null`,
a boolean, a number, a string, an array, or an object with its keys in order. -/
inductive JsVal where
  | undefined
  | null
  | bool (b : Bool)
  | num (q : ℚ)
  | str (s : String)
  | arr (items : List JsVal)
  | obj (fields : List (String × JsVal))

/-- JavaScript truthiness: `!v` is `false` exactly when `truthy v`. -/
def JsVal.truthy : JsVal → Bool
  | .undefined => false
  | .null => false
  | .bool b => b
  | .num q => decide (q ≠ 0)
  | .str s => decide (s ≠ "")
  | .arr _ => true
  | .obj _ => true

/-- The expression `v || null`. -/
def JsVal.orNull (v : JsVal) : JsVal :=
  if v.truthy then v else .null

/-- A literal of the statement text, and the content of a table cell. -/
inductive Cell where
  | null
  | bool (b : Bool)
  | num (q : ℚ)
  | str (s : String)
  deriving DecidableEq

/-- `SqlString.escape(v, true)`, the text of the `mysql` driver for a value
inside an array or an object, when that text is one literal: a nested object is
written as the string `[object Object]`; an array is written as the comma list
of its elements (a nested array in parentheses), which is one literal exactly
when it has one element that is. -/
def JsVal.inner : JsVal → Option Cell
  | .undefined => some .null
  | .null => some .null
  | .bool b => some (.bool b)
  | .num q => some (.num q)
  | .str s => some (.str s)
  | .obj _ => some (.str "[object Object]")
  | .arr [x] => inner x
  | .arr _ => none

/-- `SqlString.objectToValues`: the pairs `key = literal` written for the
fields of an object, when every value is written as one literal. -/
def JsVal.fieldPairs : List (String × JsVal) → Option (List (String × Cell))
  | [] => some []
  | (k, v) :: rest =>
    match v.inner, fieldPairs rest with
    | some c, some ps => some ((k, c) :: ps)
    | _, _ => none

/-- The text the `mysql` driver writes for a `?`: one literal; or, for an
object, a non-empty list of pairs `key = literal`; or other text (nothing, or
a comma list with more than one member). -/
inductive Bound where
  | value (c : Cell)
  | pairs (first : String × Cell) (rest : List (String × Cell))
  | other

/-- `SqlString.escape(v)` for a value bound to a `?`. -/
def JsVal.bound : JsVal → Bound
  | .obj fields =>
    match JsVal.fieldPairs fields with
    | some (p :: ps) => .pairs p ps
    | _ => .other
  | v =>
    match v.inner with
    | some c => .value c
    | none => .other

/-- Truthiness of a field that is absent or a string (`!s` is its negation). -/
def strTruthy : Option String → Bool
  | none => false
  | some s => decide (s ≠ "")

/-! ## The store -/

/-- A row of table `users`. -/
structure User where
  id : Nat
  username : String
  email : String
  password : String
  deriving DecidableEq

/-- A row of table `expenses`.  `user_id` is the column that `/last-expense`
selects on; it is `none` when the cell is `NULL`. -/
structure Expense where
  id : Nat
  email : String
  user_id : Option Nat
  title : Cell
  amount : Cell
  quantity : Cell
  created_at : Nat
  deriving DecidableEq

/-- The database: both tables in insertion order and the next auto-increment
value of each `id` column. -/
structure Store where
  users : List User
  expenses : List Expense
  nextUserId : Nat
  nextExpenseId : Nat
  deriving DecidableEq

/-- The store before any request. -/
def Store.empty : Store := ⟨[], [], 1, 1⟩

/-! ## Responses -/

/-- The decoded claims of a token, `req.user`. -/
structure Identity where
  id : Nat
  email : String
  username : String
  deriving DecidableEq

/-- The JSON body of a response. -/
inductive Body where
  | error (error : String)
  | message (message : String)
  | login (message token username : String)
  | profile (username email : String)
  | added (message : String) (insertId : Nat)
  | rows (results : List Expense)
  | row (result : Option Expense)
  deriving DecidableEq

/-- A response: `res.status(status).json(body)` (`res.json` alone has status 200). -/
structure Response where
  status : Nat
  body : Body
  deriving DecidableEq

deriving instance DecidableEq for Except

/-! ## Libraries and environment -/

/-- The two calls of `jsonwebtoken` with `process.env.JWT_SECRET` fixed:
`sign` is `jwt.sign(claims, secret, expiresIn 1h)` and `verify` gives the
decoded claims, or `none` when `jwt.verify` reports an error. -/
structure Jwt where
  sign : Identity → String
  verify : String → Option Identity

/-- The two calls of `bcryptjs` on strings: `hash p` is `bcrypt.hash(p, 10)` and
`compare p h` is `bcrypt.compare(p, h)`.  On an argument that is not a string
both reject with `Illegal arguments`. -/
structure Bcrypt where
  hash : String → String
  compare : String → String → Bool

/-- What MySQL makes of text the statements of the source do not spell out.
`compare e k c` is the value of the comparison `k = c` on row `e` (the first
pair of an object bound in a value position); `assign e k c` is row `e` after
the assignment `k = c`, for a column or a conversion that `Expense.assign`
does not cover; `emailIs u b` tells whether `WHERE email = ?` selects user `u`
when the text `b` written for the `?` is not a string literal. -/
structure Sql where
  compare : Expense → String → Cell → Cell
  assign : Expense → String → Cell → Expense
  emailIs : User → Bound → Bool

/-! ## Strings -/

/-- `s.startsWith(p)`. -/
def startsWith (s p : String) : Bool :=
  p.data.isPrefixOf s.data

/-- The pieces of a character list between occurrences of `sep`. -/
def splitChars (sep : Char) : List Char → List (List Char)
  | [] => [[]]
  | c :: cs =>
    if c = sep then [] :: splitChars sep cs
    else
      match splitChars sep cs with
      | [] => [[c]]
      | p :: ps => (c :: p) :: ps

/-- `s.split(sep)` for a one-character separator. -/
def split (s : String) (sep : Char) : List String :=
  (splitChars sep s.data).map String.mk

/-! ## Token handling -/

/-- `generateToken`. -/
def generateToken (jwt : Jwt) (user : User) : String :=
  jwt.sign { id := user.id, email := user.email, username := user.username }

/-- The token that `authenticateUser` hands to `jwt.verify`, for a non-empty
header: `token.startsWith("Bearer ") ? token.split(" ")[1] : token`
(`none` is `undefined`). -/
def extractedToken (token : String) : Option String :=
  if startsWith token "Bearer " then (split token ' ')[1]? else some token

/-- `authenticateUser`: the middleware either answers itself (`.error`) or calls
`next()` with `req.user` set to the decoded claims (`.ok`). -/
def authenticateUser (jwt : Jwt) (authorization : Option String) : Except Response Identity :=
  match authorization with
  | none => .error ⟨401, .error "Unauthorized - No Token Provided"⟩
  | some token =>
    if token = "" then .error ⟨401, .error "Unauthorized - No Token Provided"⟩
    else
      match (extractedToken token).bind jwt.verify with
      | none => .error ⟨401, .error "Invalid token"⟩
      | some decoded => .ok decoded

/-! ## Queries

Each `db.query` has an outcome `err : Option String`: `none` when the store ran
the statement, `some m` when it reported an error whose `err.message` is `m`.
A statement that reports an error changes nothing. -/

/-- `SELECT ... FROM users WHERE email = ?`. -/
def selectUsersByEmail (s : Store) (email : String) : List User :=
  s.users.filter (fun u => u.email = email)

/-- `INSERT INTO users (username, email, password) VALUES (?, ?, ?)`. -/
def insertUser (s : Store) (username email password : String) : Store :=
  { s with
    users := s.users ++ [{ id := s.nextUserId, username := username, email := email,
                           password := password }]
    nextUserId := s.nextUserId + 1 }

/-- `ORDER BY created_at DESC`: rows with the larger `created_at` first. -/
def orderByCreatedAtDesc (rows : List Expense) : List Expense :=
  rows.insertionSort (fun a b => b.created_at ≤ a.created_at)

/-- The cell a member of a `VALUES` list gives, on the row built so far: the
literal; for a single pair `k = c` the value of that comparison; `NULL` for
text that is not one value (the store rejects the list). -/
def valueCell (sql : Sql) (row : Expense) : Bound → Cell
  | .value c => c
  | .pairs (k, c) [] => sql.compare row k c
  | _ => .null

/-- The row of `INSERT INTO expenses (email, title, amount, quantity, created_at)
VALUES (?, ?, ?, ?, NOW())`.  The statement gives no `user_id`, so that cell
takes the default `userIdDefault` of the column. -/
def newExpense (sql : Sql) (userIdDefault : Option Nat) (now : Nat) (s : Store)
    (email : String) (title amount quantity : JsVal) : Expense :=
  let r0 : Expense :=
    { id := s.nextExpenseId, email := email, user_id := userIdDefault, title := .null,
      amount := .null, quantity := .null, created_at := now }
  let r1 := { r0 with title := valueCell sql r0 title.bound }
  let r2 := { r1 with amount := valueCell sql r1 amount.bound }
  { r2 with quantity := valueCell sql r2 quantity.bound }

/-- `INSERT INTO expenses (email, title, amount, quantity, created_at)
VALUES (?, ?, ?, ?, NOW())`. -/
def insertExpense (sql : Sql) (userIdDefault : Option Nat) (now : Nat) (s : Store)
    (email : String) (title amount quantity : JsVal) : Store :=
  { s with
    expenses := s.expenses ++ [newExpense sql userIdDefault now s email title amount quantity]
    nextExpenseId := s.nextExpenseId + 1 }

/-- `SELECT * FROM expenses WHERE email = ? ORDER BY created_at DESC`. -/
def selectExpensesByEmail (s : Store) (email : String) : List Expense :=
  orderByCreatedAtDesc (s.expenses.filter (fun e => e.email = email))

/-- Row `e` after the assignment `column = c`: the three columns of the `SET`
list take any literal, `email` takes a string; the rest is left to `sql`. -/
def Expense.assign (sql : Sql) (e : Expense) (column : String) (c : Cell) : Expense :=
  if column = "title" then { e with title := c }
  else if column = "amount" then { e with amount := c }
  else if column = "quantity" then { e with quantity := c }
  else
    match c with
    | .str s => if column = "email" then { e with email := s } else sql.assign e column c
    | _ => sql.assign e column c

/-- Row `e` after the member `column = ?` of a `SET` list, by the text written
for the `?`.  A literal is assigned.  The pairs of an object read
`column = k1 = c1, k2 = c2, ...`: the column takes the value of the comparison
`k1 = c1` and every further pair is an assignment of its own. -/
def setItem (sql : Sql) (e : Expense) (column : String) : Bound → Expense
  | .value c => e.assign sql column c
  | .pairs (k, c) rest =>
    rest.foldl (fun r kv => r.assign sql kv.1 kv.2) (e.assign sql column (sql.compare e k c))
  | .other => e

/-- Whether the text written for a `?` is neither one literal nor a list of pairs. -/
def Bound.isOther : Bound → Bool
  | .other => true
  | _ => false

/-- Row `e` after `SET title = ?, amount = ?, quantity = ?`, the assignments
taken from left to right. -/
def setRow (sql : Sql) (e : Expense) (title amount quantity : JsVal) : Expense :=
  if title.bound.isOther || amount.bound.isOther || quantity.bound.isOther then e
  else
    setItem sql (setItem sql (setItem sql e "title" title.bound) "amount" amount.bound)
      "quantity" quantity.bound

/-- `UPDATE expenses SET title = ?, amount = ?, quantity = ? WHERE id = ? AND email = ?`. -/
def updateExpenseRow (sql : Sql) (s : Store) (title amount quantity : JsVal) (id : Nat)
    (email : String) : Store :=
  { s with
    expenses := s.expenses.map (fun e =>
      if e.id = id ∧ e.email = email then setRow sql e title amount quantity else e) }

/-- `DELETE FROM expenses WHERE id = ? AND email = ?`. -/
def deleteExpenseRow (s : Store) (id : Nat) (email : String) : Store :=
  { s with expenses := s.expenses.filter (fun e => ¬ (e.id = id ∧ e.email = email)) }

/-- `SELECT * FROM expenses WHERE user_id = ? ORDER BY created_at DESC LIMIT 1`
(a `NULL` cell equals no value). -/
def selectLastByUserId (s : Store) (userId : Nat) : List Expense :=
  (orderByCreatedAtDesc (s.expenses.filter (fun e => e.user_id = some userId))).take 1

/-! ## Request bodies -/

/-- Body of `POST /register`; a field is absent or a string. -/
structure RegisterBody where
  username : Option String
  email : Option String
  password : Option String

/-- Body of `POST /login`. -/
structure LoginBody where
  email : JsVal
  password : JsVal

/-- Body of `POST /add-expense` and of `PUT /update-expense/:id`. -/
structure ExpenseBody where
  title : JsVal
  amount : JsVal
  quantity : JsVal

/-! ## Handlers -/

/-- `POST /register`.  `err1` is the outcome of the `SELECT`, `err2` of the
`INSERT`. -/
def register (bc : Bcrypt) (s : Store) (body : RegisterBody)
    (err1 err2 : Option String) : Response × Store :=
  if !strTruthy body.username || !strTruthy body.email || !strTruthy body.password then
    (⟨400, .error "All fields are required"⟩, s)
  else
    let username := body.username.getD ""
    let email := body.email.getD ""
    let password := body.password.getD ""
    match err1 with
    | some _ => (⟨500, .error "Database error"⟩, s)
    | none =>
      let results := selectUsersByEmail s email
      if results.length > 0 then
        (⟨400, .error "User already exists"⟩, s)
      else
        let hashedPassword := bc.hash password
        match err2 with
        | some _ => (⟨500, .error "Database error"⟩, s)
        | none =>
          (⟨200, .message "Registration successful!"⟩,
            insertUser s username email hashedPassword)

/-- `SELECT * FROM users WHERE email = ?` with a value of the body bound. -/
def selectUsersWhereEmail (sql : Sql) (s : Store) (email : JsVal) : List User :=
  match email.bound with
  | .value (.str e) => selectUsersByEmail s e
  | b => s.users.filter (fun u => sql.emailIs u b)

/-- The part of `POST /login` before the token is made: what a failed login
sends, or the stored user a token is generated for.  When the password is not
a string, `bcrypt.compare` rejects; the rejection is thrown by `await` inside
the query callback, which has no handler for it, and no response is sent
(`.error none`). -/
def loginUser (sql : Sql) (bc : Bcrypt) (s : Store) (body : LoginBody)
    (err : Option String) : Except (Option Response) User :=
  if !body.email.truthy || !body.password.truthy then
    .error (some ⟨400, .error "All fields are required"⟩)
  else
    match err with
    | some _ => .error (some ⟨500, .error "Server error"⟩)
    | none =>
      match selectUsersWhereEmail sql s body.email with
      | [] => .error (some ⟨400, .error "User not found"⟩)
      | user :: _ =>
        match body.password with
        | .str password =>
          let isMatch := bc.compare password user.password
          if !isMatch then .error (some ⟨401, .error "Invalid credentials"⟩)
          else .ok user
        | _ => .error none

/-- `POST /login`: the response, if one is sent, and the store. -/
def login (sql : Sql) (jwt : Jwt) (bc : Bcrypt) (s : Store) (body : LoginBody)
    (err : Option String) : Option Response × Store :=
  match loginUser sql bc s body err with
  | .error res => (res, s)
  | .ok user =>
    let token := generateToken jwt user
    (some ⟨200, .login "Login successful" token user.username⟩, s)

/-- `GET /user`, after the middleware. -/
def getUser (s : Store) (user : Identity) (err : Option String) : Response × Store :=
  let email := user.email
  match err with
  | some _ => (⟨500, .error "Database error"⟩, s)
  | none =>
    match selectUsersByEmail s email with
    | [] => (⟨404, .error "User not found"⟩, s)
    | r :: _ => (⟨200, .profile r.username r.email⟩, s)

/-- `POST /add-expense`, after the middleware. -/
def addExpense (sql : Sql) (userIdDefault : Option Nat) (now : Nat) (s : Store)
    (user : Identity) (body : ExpenseBody) (err : Option String) : Response × Store :=
  let email := user.email
  if !body.title.truthy || !body.amount.truthy then
    (⟨400, .error "Title and Amount are required"⟩, s)
  else
    match err with
    | some message => (⟨500, .error message⟩, s)
    | none =>
      (⟨201, .added "Expense added successfully!" s.nextExpenseId⟩,
        insertExpense sql userIdDefault now s email body.title body.amount
          body.quantity.orNull)

/-- `GET /expenses`, after the middleware. -/
def getExpenses (s : Store) (user : Identity) (err : Option String) : Response × Store :=
  let email := user.email
  match err with
  | some _ => (⟨500, .error "Database error"⟩, s)
  | none => (⟨200, .rows (selectExpensesByEmail s email)⟩, s)

/-- `PUT /update-expense/:id`, after the middleware. -/
def updateExpense (sql : Sql) (s : Store) (user : Identity) (id : Nat)
    (body : ExpenseBody) (err : Option String) : Response × Store :=
  let email := user.email
  match err with
  | some _ => (⟨500, .error "Database error"⟩, s)
  | none =>
    (⟨200, .message "Expense updated successfully"⟩,
      updateExpenseRow sql s body.title body.amount body.quantity id email)

/-- `DELETE /delete-expense/:id`, after the middleware. -/
def deleteExpense (s : Store) (user : Identity) (id : Nat)
    (err : Option String) : Response × Store :=
  let email := user.email
  match err with
  | some _ => (⟨500, .error "Database error"⟩, s)
  | none => (⟨200, .message "Expense deleted successfully"⟩, deleteExpenseRow s id email)

/-- `GET /last-expense`, after the middleware. -/
def lastExpense (s : Store) (user : Identity) (err : Option String) : Response × Store :=
  let userId := user.id
  match err with
  | some _ => (⟨500, .error "Failed to fetch last expense"⟩, s)
  | none => (⟨200, .row (selectLastByUserId s userId).head?⟩, s)

/-! ## Routes -/

/-- A route guarded by `authenticateUser`: the handler runs only after `next()`. -/
def authenticated (jwt : Jwt) (authorization : Option String) (s : Store)
    (handler : Identity → Response × Store) : Response × Store :=
  match authenticateUser jwt authorization with
  | .error res => (res, s)
  | .ok user => handler user

/-- A request to one of the eight endpoints: the `Authorization` header of a
guarded route, the path parameter and the parsed body. -/
inductive Request where
  | register (body : RegisterBody)
  | login (body : LoginBody)
  | user (authorization : Option String)
  | addExpense (authorization : Option String) (body : ExpenseBody)
  | expenses (authorization : Option String)
  | updateExpense (authorization : Option String) (id : Nat) (body : ExpenseBody)
  | deleteExpense (authorization : Option String) (id : Nat)
  | lastExpense (authorization : Option String)

/-- What a request meets outside the handler code: the two libraries, the
store beyond the statements spelled out here, the clock read by `NOW()`, the
default of column `user_id`, and the outcomes of the first and second
`db.query` of the handler. -/
structure Env where
  jwt : Jwt
  bcrypt : Bcrypt
  sql : Sql
  now : Nat
  userIdDefault : Option Nat
  err1 : Option String
  err2 : Option String

/-- A handler that sends its response. -/
def sent (r : Response × Store) : Option Response × Store :=
  (some r.1, r.2)

/-- The server: one request against the store, with the response if one is
sent. -/
def handle (env : Env) (s : Store) : Request → Option Response × Store
  | .register body => sent (register env.bcrypt s body env.err1 env.err2)
  | .login body => login env.sql env.jwt env.bcrypt s body env.err1
  | .user auth => sent (authenticated env.jwt auth s (fun u => getUser s u env.err1))
  | .addExpense auth body =>
    sent (authenticated env.jwt auth s
      (fun u => addExpense env.sql env.userIdDefault env.now s u body env.err1))
  | .expenses auth => sent (authenticated env.jwt auth s (fun u => getExpenses s u env.err1))
  | .updateExpense auth id body =>
    sent (authenticated env.jwt auth s (fun u => updateExpense env.sql s u id body env.err1))
  | .deleteExpense auth id =>
    sent (authenticated env.jwt auth s (fun u => deleteExpense s u id env.err1))
  | .lastExpense auth =>
    sent (authenticated env.jwt auth s (fun u => lastExpense s u env.err1))

/-- A sequence of requests, each with its own environment, from store `s`. -/
def run (s : Store) : List (Env × Request) → Store
  | [] => s
  | (env, r) :: rest => run (handle env s r).2 rest

/-! ## Issued tokens

The server keeps no record of the tokens it signs.  To speak of requests whose
tokens come from a login, the store is paired with the claims signed so far. -/

/-- The store and the claims of every token signed by a successful login. -/
structure Sys where
  store : Store
  issued : List Identity

/-- The claims a request makes `generateToken` sign: those of the stored user
on a successful login, none otherwise. -/
def issuedBy (env : Env) (s : Store) : Request → List Identity
  | .login body =>
    match loginUser env.sql env.bcrypt s body env.err1 with
    | .error _ => []
    | .ok user => [{ id := user.id, email := user.email, username := user.username }]
  | _ => []

/-- The `Authorization` header of a request to a guarded route. -/
def Request.authorization? : Request → Option (Option String)
  | .register _ => none
  | .login _ => none
  | .user auth => some auth
  | .addExpense auth _ => some auth
  | .expenses auth => some auth
  | .updateExpense auth _ _ => some auth
  | .deleteExpense auth _ => some auth
  | .lastExpense auth => some auth

/-- A token verifies only if it was issued by a successful login: whenever the
middleware lets the request through, the decoded claims are among those signed
so far. -/
def Admissible (env : Env) (sys : Sys) (r : Request) : Prop :=
  ∀ auth user, r.authorization? = some auth →
    authenticateUser env.jwt auth = .ok user → user ∈ sys.issued

/-- The system after one request. -/
def next (env : Env) (sys : Sys) (r : Request) : Sys :=
  { store := (handle env sys.store r).2
    issued := sys.issued ++ issuedBy env sys.store r }

/-- The states reachable from the empty store by requests whose tokens come
from logins. -/
inductive Reachable : Sys → Prop where
  | init : Reachable ⟨Store.empty, []⟩
  | step (env : Env) (sys : Sys) (r : Request) :
      Reachable sys → Admissible env sys r → Reachable (next env sys r)

/-- The invariant of the reachable states: every expense is owned by the email
of a stored user, stored users have pairwise different emails, and every
signed claim set carries the email of a stored user. -/
def Inv (sys : Sys) : Prop :=
  (∀ e ∈ sys.store.expenses, ∃ u ∈ sys.store.users, u.email = e.email) ∧
    sys.store.users.Pairwise (fun u v => u.email ≠ v.email) ∧
    ∀ c ∈ sys.issued, ∃ u ∈ sys.store.users, u.email = c.email

/-- The row that a successful `POST /add-expense` of `user` with `body` inserts. -/
def createdExpense (env : Env) (s : Store) (user : Identity) (body : ExpenseBody) : Expense :=
  newExpense env.sql env.userIdDefault env.now s user.email body.title body.amount
    body.quantity.orNull

/-- A request that binds no object and no array to a `SET` list: every field of
the body of a `PUT /update-expense/:id` is written as one literal. -/
def Request.plain : Request → Prop
  | .updateExpense _ _ body =>
    (∃ c, body.title.bound = .value c) ∧ (∃ c, body.amount.bound = .value c) ∧
      ∃ c, body.quantity.bound = .value c
  | _ => True

/-- The states reachable from the empty store by plain requests whose tokens
come from logins. -/
inductive PlainReachable : Sys → Prop where
  | init : PlainReachable ⟨Store.empty, []⟩
  | step (env : Env) (sys : Sys) (r : Request) :
      PlainReachable sys → Admissible env sys r → r.plain → PlainReachable (next env sys r)

/-! ## A sample environment

A verifier that accepts two tokens, a hash that tags the password, a fixed
clock; used to run the handlers on concrete requests. -/

/-- Claims of the first sample user. -/
def alice : Identity := ⟨1, "alice@x.io", "alice"⟩

/-- Claims of the second sample user. -/
def bob : Identity := ⟨2, "bob@x.io", "bob"⟩

/-- A `jsonwebtoken` instance for which exactly two strings verify. -/
def sampleJwt : Jwt :=
  { sign := fun c => if c = alice then "a.b.c" else if c = bob then "d.e.f" else "x.y.z"
    verify := fun t =>
      if t = "a.b.c" then some alice else if t = "d.e.f" then some bob else none }

/-- A stand-in for `bcryptjs`. -/
def sampleBcrypt : Bcrypt :=
  { hash := fun p => "$2a$10$" ++ p
    compare := fun p h => decide (h = "$2a$10$" ++ p) }

/-- A store in which the comparisons it is asked for are false (value 0), and
which leaves rows and selections outside the spelled-out cases alone. -/
def sampleSql : Sql :=
  { compare := fun _ _ _ => .num 0
    assign := fun e _ _ => e
    emailIs := fun _ _ => false }

/-- The sample environment with the given outcome of the first query; column
`user_id` defaults to `NULL`. -/
def sampleEnv (err : Option String) : Env :=
  { jwt := sampleJwt, bcrypt := sampleBcrypt, sql := sampleSql, now := 1000,
    userIdDefault := none, err1 := err, err2 := none }

/-- The example expense: title "Coffee", amount 4.5, no quantity. -/
def coffee : ExpenseBody := ⟨.str "Coffee", .num (9 / 2), .undefined⟩

/-- The system after three requests on the empty store: a registration, a
login of the registered user, and an expense added with the token of that
login. -/
def sampleSys : Sys :=
  next (sampleEnv none)
    (next (sampleEnv none)
      (next (sampleEnv none) ⟨Store.empty, []⟩
        (.register ⟨some "alice", some "alice@x.io", some "secret"⟩))
      (.login ⟨.str "alice@x.io", .str "secret"⟩))
    (.addExpense (some "Bearer a.b.c") coffee)

/-- The sample system after one more request: the owner of expense 1 sends
`PUT /update-expense/1` with an object as title, whose second key is `email`. -/
def ghostSys : Sys :=
  next (sampleEnv none) sampleSys
    (.updateExpense (some "Bearer a.b.c") 1
      ⟨.obj [("title", .str "x"), ("email", .str "ghost@nowhere.io")], .num 5, .undefined⟩)

/-! ## Basic facts -/

theorem authenticated_ok {jwt : Jwt} {auth : Option String} {user : Identity}
    (h : authenticateUser jwt auth = .ok user) (s : Store)
    (handler : Identity → Response × Store) :
    authenticated jwt auth s handler = handler user := by
  simp [authenticated, h]

theorem authenticated_error {jwt : Jwt} {auth : Option String} {res : Response}
    (h : authenticateUser jwt auth = .error res) (s : Store)
    (handler : Identity → Response × Store) :
    authenticated jwt auth s handler = (res, s) := by
  simp [authenticated, h]

theorem updateExpenseRow_of_none (sql : Sql) (s : Store) (title amount quantity : JsVal)
    (id : Nat) (email : String) (h : ∀ e ∈ s.expenses, ¬ (e.id = id ∧ e.email = email)) :
    updateExpenseRow sql s title amount quantity id email = s := by
  have hm : s.expenses.map (fun e =>
      if e.id = id ∧ e.email = email then setRow sql e title amount quantity else e)
        = s.expenses := by
    conv_rhs => rw [← List.map_id s.expenses]
    apply List.map_congr_left
    intro e he
    simp [h e he]
  unfold updateExpenseRow
  rw [hm]

theorem deleteExpenseRow_of_none (s : Store) (id : Nat) (email : String)
    (h : ∀ e ∈ s.expenses, ¬ (e.id = id ∧ e.email = email)) :
    deleteExpenseRow s id email = s := by
  have hf : s.expenses.filter (fun e => ¬ (e.id = id ∧ e.email = email)) = s.expenses := by
    rw [List.filter_eq_self]
    intro e he
    exact decide_eq_true (h e he)
  unfold deleteExpenseRow
  rw [hf]

/-! ## Update and delete of a row the caller does not own -/

/-- C7: for an authenticated caller, any id and any body, when the store holds
no expense with that id owned by the caller (and the store runs the statement),
`PUT /update-expense/:id` and `DELETE /delete-expense/:id` each answer 200 with
their success message and leave the whole store, users and expenses, as it was. -/
theorem update_delete_unowned_noop (env : Env) (s : Store) (auth : Option String)
    (user : Identity) (id : Nat) (body : ExpenseBody)
    (hauth : authenticateUser env.jwt auth = .ok user)
    (herr : env.err1 = none)
    (hnone : ∀ e ∈ s.expenses, ¬ (e.id = id ∧ e.email = user.email)) :
    handle env s (.updateExpense auth id body)
        = (some ⟨200, .message "Expense updated successfully"⟩, s) ∧
      handle env s (.deleteExpense auth id)
        = (some ⟨200, .message "Expense deleted successfully"⟩, s) := by
  constructor
  · simp only [handle, sent, authenticated_ok hauth, updateExpense, herr]
    rw [updateExpenseRow_of_none env.sql s _ _ _ id user.email hnone]
  · simp only [handle, sent, authenticated_ok hauth, deleteExpense, herr]
    rw [deleteExpenseRow_of_none s id user.email hnone]

theorem sample_add_coffee :
    handle (sampleEnv none) Store.empty (.addExpense (some "a.b.c") coffee)
      = (some ⟨201, .added "Expense added successfully!" 1⟩,
          ⟨[], [⟨1, "alice@x.io", none, .str "Coffee", .num (9 / 2), .null, 1000⟩], 1, 2⟩) := by
  have h1 : authenticateUser sampleJwt (some "a.b.c") = .ok alice := by decide
  simp [handle, sent, authenticated_ok h1, addExpense, coffee, JsVal.truthy, insertExpense,
    newExpense, valueCell, JsVal.bound, JsVal.inner, Store.empty, alice, JsVal.orNull,
    sampleEnv]

theorem update_delete_unowned_noop_witness :
    authenticateUser (sampleEnv none).jwt (some "Bearer d.e.f") = .ok bob ∧
      (sampleEnv none).err1 = none ∧
      (∀ e ∈ (handle (sampleEnv none) Store.empty (.addExpense (some "a.b.c") coffee)).2.expenses,
        ¬ (e.id = 1 ∧ e.email = bob.email)) ∧
      (handle (sampleEnv none)
          (handle (sampleEnv none) Store.empty (.addExpense (some "a.b.c") coffee)).2
          (.updateExpense (some "Bearer d.e.f") 1 coffee)
        = (some ⟨200, .message "Expense updated successfully"⟩,
            (handle (sampleEnv none) Store.empty (.addExpense (some "a.b.c") coffee)).2) ∧
        handle (sampleEnv none)
          (handle (sampleEnv none) Store.empty (.addExpense (some "a.b.c") coffee)).2
          (.deleteExpense (some "Bearer d.e.f") 1)
        = (some ⟨200, .message "Expense deleted successfully"⟩,
            (handle (sampleEnv none) Store.empty (.addExpense (some "a.b.c") coffee)).2)) :=
  have h1 : authenticateUser (sampleEnv none).jwt (some "Bearer d.e.f") = .ok bob := by decide
  have h3 : ∀ e ∈ (handle (sampleEnv none) Store.empty
      (.addExpense (some "a.b.c") coffee)).2.expenses, ¬ (e.id = 1 ∧ e.email = bob.email) := by
    rw [sample_add_coffee]
    simp [bob]
  ⟨h1, rfl, h3, update_delete_unowned_noop _ _ _ bob 1 coffee h1 rfl h3⟩

/-! ## Adding an expense -/

theorem addExpense_ok (env : Env) (s : Store) (user : Identity) (body : ExpenseBody)
    (ht : body.title.truthy = true) (ha : body.amount.truthy = true) :
    addExpense env.sql env.userIdDefault env.now s user body none
      = (⟨201, .added "Expense added successfully!" s.nextExpenseId⟩,
          { s with
            expenses := s.expenses ++ [createdExpense env s user body]
            nextExpenseId := s.nextExpenseId + 1 }) := by
  simp [addExpense, ht, ha, insertExpense, createdExpense]

theorem addExpense_status_201 (env : Env) (s : Store) (user : Identity) (body : ExpenseBody)
    (h : (addExpense env.sql env.userIdDefault env.now s user body env.err1).1.status = 201) :
    body.title.truthy = true ∧ body.amount.truthy = true ∧ env.err1 = none := by
  unfold addExpense at h
  by_cases ht : body.title.truthy = true <;> by_cases ha : body.amount.truthy = true <;>
    cases he : env.err1 <;> simp_all

theorem createdExpense_email (env : Env) (s : Store) (user : Identity) (body : ExpenseBody) :
    (createdExpense env s user body).email = user.email := rfl

theorem createdExpense_id (env : Env) (s : Store) (user : Identity) (body : ExpenseBody) :
    (createdExpense env s user body).id = s.nextExpenseId := rfl

/-- C6, at the failing inputs: a body with title "Coffee" and the numeric
amount 0 holds both fields, yet `POST /add-expense` answers 400 "Title and
Amount are required" and adds nothing; and a body with title "Coffee", amount 3
and quantity 0 is stored with quantity `NULL`, not with the submitted
quantity 0. -/
theorem add_expense_amount_zero_rejected :
    handle (sampleEnv none) Store.empty
        (.addExpense (some "a.b.c") ⟨.str "Coffee", .num 0, .undefined⟩)
      = (some ⟨400, .error "Title and Amount are required"⟩, Store.empty) ∧
    handle (sampleEnv none) Store.empty
        (.addExpense (some "a.b.c") ⟨.str "Coffee", .num 3, .num 0⟩)
      = (some ⟨201, .added "Expense added successfully!" 1⟩,
          ⟨[], [⟨1, "alice@x.io", none, .str "Coffee", .num 3, .null, 1000⟩], 1, 2⟩) := by
  decide

/-- The sibling `PUT /update-expense/:id` binds `quantity` itself: the owner of
a row who submits quantity 0 has 0 stored, not `NULL`. -/
theorem update_keeps_quantity_zero :
    handle (sampleEnv none)
        ⟨[], [⟨1, "alice@x.io", none, .str "Coffee", .num 3, .null, 1000⟩], 1, 2⟩
        (.updateExpense (some "a.b.c") 1 ⟨.str "Coffee", .num 3, .num 0⟩)
      = (some ⟨200, .message "Expense updated successfully"⟩,
          ⟨[], [⟨1, "alice@x.io", none, .str "Coffee", .num 3, .num 0, 1000⟩], 1, 2⟩) := by
  decide

/-- What `POST /add-expense` does on every body, for an authenticated caller:
it answers 400, store unchanged, exactly when title or amount is falsy; when
both are truthy and the store runs the statement it answers 201 with the new
id and appends the one row `createdExpense`, owned by the caller's email. -/
theorem add_expense_by_truthiness (env : Env) (s : Store) (auth : Option String)
    (user : Identity) (body : ExpenseBody)
    (hauth : authenticateUser env.jwt auth = .ok user) :
    (Option.map Response.status (handle env s (.addExpense auth body)).1 = some 400 ↔
        (body.title.truthy = false ∨ body.amount.truthy = false)) ∧
      (body.title.truthy = false ∨ body.amount.truthy = false →
        handle env s (.addExpense auth body)
          = (some ⟨400, .error "Title and Amount are required"⟩, s)) ∧
      (body.title.truthy = true → body.amount.truthy = true → env.err1 = none →
        handle env s (.addExpense auth body)
          = (some ⟨201, .added "Expense added successfully!" s.nextExpenseId⟩,
              { s with
                expenses := s.expenses ++ [createdExpense env s user body]
                nextExpenseId := s.nextExpenseId + 1 })) := by
  simp only [handle, sent, authenticated_ok hauth, Option.map_some']
  refine ⟨?_, ?_, ?_⟩
  · unfold addExpense
    by_cases ht : body.title.truthy = true <;> by_cases ha : body.amount.truthy = true <;>
      cases he : env.err1 <;> simp_all
  · intro h
    unfold addExpense
    rcases h with h | h <;> simp [h]
  · intro ht ha he
    rw [he, addExpense_ok env s user body ht ha]

/-! ## Store failures -/

/-- C8, at the failing input: when the `INSERT` of `POST /add-expense` fails,
the 500 response carries the store's own error message, whatever it is. -/
theorem add_expense_forwards_store_error (m : String) :
    handle (sampleEnv (some m)) Store.empty (.addExpense (some "a.b.c") coffee)
      = (some ⟨500, .error m⟩, Store.empty) := by
  have h1 : authenticateUser sampleJwt (some "a.b.c") = .ok alice := by decide
  simp [handle, sent, authenticated_ok h1, addExpense, coffee, JsVal.truthy, sampleEnv]

/-- On every other query the 500 response is a fixed message: the response to
a request whose first (or, for `/register`, second) query fails does not
depend on the store's error message, except on `POST /add-expense`. -/
theorem store_error_fixed_elsewhere (env : Env) (s : Store) (r : Request) (m m' : String)
    (hr : ∀ auth body, r ≠ .addExpense auth body) :
    handle { env with err1 := some m } s r = handle { env with err1 := some m' } s r ∧
      handle { env with err1 := none, err2 := some m } s r
        = handle { env with err1 := none, err2 := some m' } s r := by
  cases r with
  | register body =>
    constructor
    · simp only [handle, register]
    · simp only [handle, register]
  | login body => simp only [handle, login, loginUser, and_self]
  | user auth => simp only [handle, authenticated, getUser, and_self]
  | addExpense auth body => exact absurd rfl (hr auth body)
  | expenses auth => simp only [handle, authenticated, getExpenses, and_self]
  | updateExpense auth id body => simp only [handle, authenticated, updateExpense, and_self]
  | deleteExpense auth id => simp only [handle, authenticated, deleteExpense, and_self]
  | lastExpense auth => simp only [handle, authenticated, lastExpense, and_self]

/-! ## The last expense -/

/-- C2, at the failing input: on the empty store the caller adds the expense
"Coffee", 4.5 and gets 201 with id 1; the caller's `GET /last-expense` that
follows answers `null`, not the expense just created. -/
theorem last_expense_misses_created :
    handle (sampleEnv none) Store.empty (.addExpense (some "a.b.c") coffee)
        = (some ⟨201, .added "Expense added successfully!" 1⟩,
            ⟨[], [⟨1, "alice@x.io", none, .str "Coffee", .num (9 / 2), .null, 1000⟩], 1, 2⟩) ∧
      handle (sampleEnv none)
          (handle (sampleEnv none) Store.empty (.addExpense (some "a.b.c") coffee)).2
          (.lastExpense (some "a.b.c"))
        = (some ⟨200, .row none⟩,
            (handle (sampleEnv none) Store.empty (.addExpense (some "a.b.c") coffee)).2) := by
  have h1 : authenticateUser sampleJwt (some "a.b.c") = .ok alice := by decide
  refine ⟨sample_add_coffee, ?_⟩
  rw [sample_add_coffee]
  simp [handle, sent, authenticated_ok h1, lastExpense, selectLastByUserId,
    orderByCreatedAtDesc, sampleEnv]

/-- Whatever the store holds and whatever the default of column `user_id`, as
long as that default is not the caller's own id: after a successful
`POST /add-expense`, the caller's `GET /last-expense` does not answer with the
created row. -/
theorem last_expense_never_created (env env' : Env) (s : Store) (auth : Option String)
    (user : Identity) (body : ExpenseBody)
    (hauth : authenticateUser env.jwt auth = .ok user)
    (hauth' : authenticateUser env'.jwt auth = .ok user)
    (hdflt : env.userIdDefault ≠ some user.id) :
    Option.map Response.body
        (handle env' (handle env s (.addExpense auth body)).2 (.lastExpense auth)).1
      ≠ some (.row (some (createdExpense env s user body))) := by
  simp only [handle, sent, authenticated_ok hauth, authenticated_ok hauth', lastExpense,
    Option.map_some']
  cases env'.err1 with
  | some m => simp
  | none =>
    simp only [ne_eq, Option.some.injEq, Body.row.injEq]
    intro h
    have hm : createdExpense env s user body ∈
        selectLastByUserId (addExpense env.sql env.userIdDefault env.now s user body
          env.err1).2 user.id := List.mem_of_mem_head? h
    have hm2 := List.mem_of_mem_take hm
    rw [orderByCreatedAtDesc, List.mem_insertionSort] at hm2
    have := (List.mem_filter.mp hm2).2
    simp [createdExpense, newExpense] at this
    exact hdflt this

/-! ## Listing -/

theorem selectExpensesByEmail_perm (s : Store) (email : String) :
    (selectExpensesByEmail s email).Perm (s.expenses.filter (fun e => e.email = email)) :=
  List.perm_insertionSort _ _

theorem selectExpensesByEmail_sorted (s : Store) (email : String) :
    (selectExpensesByEmail s email).Pairwise (fun x y => y.created_at ≤ x.created_at) := by
  haveI : IsTotal Expense (fun x y => y.created_at ≤ x.created_at) :=
    ⟨fun x y => Nat.le_total y.created_at x.created_at⟩
  haveI : IsTrans Expense (fun x y => y.created_at ≤ x.created_at) :=
    ⟨fun _ _ _ hxy hyz => Nat.le_trans hyz hxy⟩
  exact List.sorted_insertionSort (fun (x y : Expense) => y.created_at ≤ x.created_at) _

theorem email_of_mem_selectExpensesByEmail {s : Store} {email : String} {e : Expense}
    (h : e ∈ selectExpensesByEmail s email) : e ∈ s.expenses ∧ e.email = email := by
  have h2 := (selectExpensesByEmail_perm s email).mem_iff.mp h
  simpa using h2

/-- C9: for an authenticated caller and any store (that runs the query),
`GET /expenses` answers 200 with a list that holds exactly the expenses whose
owner email is the caller's email, each as often as the store holds it, with
`created_at` descending; when the caller owns no expense the list is empty. -/
theorem get_expenses_contract (env : Env) (s : Store) (auth : Option String)
    (user : Identity)
    (hauth : authenticateUser env.jwt auth = .ok user)
    (herr : env.err1 = none) :
    ∃ rows, handle env s (.expenses auth) = (some ⟨200, .rows rows⟩, s) ∧
      rows.Perm (s.expenses.filter (fun e => e.email = user.email)) ∧
      rows.Pairwise (fun x y => y.created_at ≤ x.created_at) ∧
      ((∀ e ∈ s.expenses, e.email ≠ user.email) → rows = []) := by
  refine ⟨selectExpensesByEmail s user.email, ?_, selectExpensesByEmail_perm s user.email,
    selectExpensesByEmail_sorted s user.email, ?_⟩
  · simp only [handle, sent, authenticated_ok hauth, getExpenses, herr]
  · intro hnone
    have hf : s.expenses.filter (fun e => e.email = user.email) = [] := by
      rw [List.filter_eq_nil_iff]
      intro e he
      simpa using hnone e he
    have hp := selectExpensesByEmail_perm s user.email
    rw [hf] at hp
    exact hp.eq_nil

theorem get_expenses_contract_witness :
    authenticateUser (sampleEnv none).jwt (some "d.e.f") = .ok bob ∧
      (sampleEnv none).err1 = none ∧
      ∃ rows, handle (sampleEnv none)
          ⟨[], [⟨1, "alice@x.io", none, .str "Coffee", .num 3, .null, 1000⟩,
                ⟨2, "bob@x.io", none, .str "Tea", .num 2, .null, 1001⟩,
                ⟨3, "bob@x.io", none, .str "Bus", .num 5, .null, 1002⟩], 1, 4⟩
          (.expenses (some "d.e.f")) =
            (some ⟨200, .rows rows⟩,
              ⟨[], [⟨1, "alice@x.io", none, .str "Coffee", .num 3, .null, 1000⟩,
                ⟨2, "bob@x.io", none, .str "Tea", .num 2, .null, 1001⟩,
                ⟨3, "bob@x.io", none, .str "Bus", .num 5, .null, 1002⟩], 1, 4⟩) ∧
        rows.Pairwise (fun x y => y.created_at ≤ x.created_at) :=
  have h1 : authenticateUser (sampleEnv none).jwt (some "d.e.f") = .ok bob := by decide
  ⟨h1, rfl,
    (get_expenses_contract (sampleEnv none) _ (some "d.e.f") bob h1 rfl).imp
      (fun _ h => ⟨h.1, h.2.2.1⟩)⟩

/-! ## Rows of other owners -/

theorem mem_updateExpenseRow_of_ne {sql : Sql} {s : Store} {title amount quantity : JsVal}
    {id : Nat} {email : String} {e : Expense} (he : e ∈ s.expenses) (hne : e.email ≠ email) :
    e ∈ (updateExpenseRow sql s title amount quantity id email).expenses := by
  simp only [updateExpenseRow, List.mem_map]
  exact ⟨e, he, by simp [hne]⟩

theorem others_sublist_updateExpenseRow (sql : Sql) (s : Store) (title amount quantity : JsVal)
    (id : Nat) (email : String) :
    (s.expenses.filter (fun e => e.email ≠ email)).Sublist
      (updateExpenseRow sql s title amount quantity id email).expenses := by
  simp only [updateExpenseRow]
  induction s.expenses with
  | nil => simp
  | cons e l ih =>
    by_cases hc : e.email = email
    · have hf : (e :: l).filter (fun e => e.email ≠ email)
          = l.filter (fun e => e.email ≠ email) := by
        simp [List.filter_cons, hc]
      rw [hf, List.map_cons]
      exact List.Sublist.cons _ ih
    · have hf : (e :: l).filter (fun e => e.email ≠ email)
          = e :: l.filter (fun e => e.email ≠ email) := by
        simp [List.filter_cons, hc]
      have hn : ¬ (e.id = id ∧ e.email = email) := fun h => hc h.2
      rw [hf, List.map_cons, if_neg hn]
      exact List.Sublist.cons₂ _ ih

theorem mem_deleteExpenseRow_of_ne {s : Store} {id : Nat} {email : String} {e : Expense}
    (he : e ∈ s.expenses) (hne : e.email ≠ email) :
    e ∈ (deleteExpenseRow s id email).expenses := by
  simp only [deleteExpenseRow, List.mem_filter]
  exact ⟨he, by simp [hne]⟩

theorem others_sublist_deleteExpenseRow (s : Store) (id : Nat) (email : String) :
    (s.expenses.filter (fun e => e.email ≠ email)).Sublist
      (deleteExpenseRow s id email).expenses := by
  simp only [deleteExpenseRow]
  induction s.expenses with
  | nil => simp
  | cons e l ih =>
    by_cases hc : e.email = email
    · have hf : (e :: l).filter (fun e => e.email ≠ email)
          = l.filter (fun e => e.email ≠ email) := by
        simp [List.filter_cons, hc]
      rw [hf]
      exact ih.trans ((List.sublist_cons_self e l).filter _)
    · have hf : (e :: l).filter (fun e => e.email ≠ email)
          = e :: l.filter (fun e => e.email ≠ email) := by
        simp [List.filter_cons, hc]
      have hg : (e :: l).filter (fun e => ¬ (e.id = id ∧ e.email = email))
          = e :: l.filter (fun e => ¬ (e.id = id ∧ e.email = email)) := by
        simp [List.filter_cons, hc]
      rw [hf, hg]
      exact List.Sublist.cons₂ _ ih

theorem rows_of_get_expenses {env : Env} {s : Store} {auth : Option String}
    {user : Identity} {rows : List Expense}
    (hauth : authenticateUser env.jwt auth = .ok user)
    (h : Option.map Response.body (handle env s (.expenses auth)).1 = some (.rows rows)) :
    ∀ e ∈ rows, e.email = user.email := by
  simp only [handle, sent, authenticated_ok hauth, getExpenses, Option.map_some',
    Option.some.injEq] at h
  cases he : env.err1 with
  | some m => simp [he] at h
  | none =>
    simp only [he, Body.rows.injEq] at h
    intro e hmem
    rw [← h] at hmem
    exact (email_of_mem_selectExpensesByEmail hmem).2

/-- C1: whatever the store holds, once user A's `POST /add-expense` has created
expense E (answer 201), a `PUT /update-expense/:id` with any body or a
`DELETE /delete-expense/:id` that user B, whose email differs from A's, sends
with E's id leaves E in the store with every field as created, and leaves
every row that is not B's in place, in order; the list of B's `GET /expenses`,
before or after, does not contain E; and when E's id was new to the table, as
an auto-increment id is, B's request leaves the whole store as it was. -/
theorem non_owner_isolation (envA envU envG : Env) (s : Store) (authA authB : Option String)
    (a b : Identity) (bodyA bodyB : ExpenseBody)
    (hA : authenticateUser envA.jwt authA = .ok a)
    (hU : authenticateUser envU.jwt authB = .ok b)
    (hG : authenticateUser envG.jwt authB = .ok b)
    (hne : a.email ≠ b.email)
    (hcreated : Option.map Response.status (handle envA s (.addExpense authA bodyA)).1
      = some 201) :
    createdExpense envA s a bodyA ∈ (handle envA s (.addExpense authA bodyA)).2.expenses ∧
      (∀ rows, Option.map Response.body
          (handle envG (handle envA s (.addExpense authA bodyA)).2 (.expenses authB)).1
            = some (.rows rows) → createdExpense envA s a bodyA ∉ rows) ∧
      ∀ r, r = .updateExpense authB (createdExpense envA s a bodyA).id bodyB ∨
          r = .deleteExpense authB (createdExpense envA s a bodyA).id →
        createdExpense envA s a bodyA
            ∈ (handle envU (handle envA s (.addExpense authA bodyA)).2 r).2.expenses ∧
          ((handle envA s (.addExpense authA bodyA)).2.expenses.filter
              (fun e => e.email ≠ b.email)).Sublist
            (handle envU (handle envA s (.addExpense authA bodyA)).2 r).2.expenses ∧
          (∀ rows, Option.map Response.body
              (handle envG (handle envU (handle envA s (.addExpense authA bodyA)).2 r).2
                (.expenses authB)).1 = some (.rows rows) →
            createdExpense envA s a bodyA ∉ rows) ∧
          ((∀ e ∈ s.expenses, e.id ≠ s.nextExpenseId) →
            (handle envU (handle envA s (.addExpense authA bodyA)).2 r).2
              = (handle envA s (.addExpense authA bodyA)).2) := by
  have hEmail : (createdExpense envA s a bodyA).email ≠ b.email := hne
  have hnot : ∀ (s2 : Store) rows,
      Option.map Response.body (handle envG s2 (.expenses authB)).1 = some (.rows rows) →
      createdExpense envA s a bodyA ∉ rows :=
    fun s2 rows h hm => hEmail (rows_of_get_expenses hG h _ hm)
  have hmem : createdExpense envA s a bodyA
      ∈ (handle envA s (.addExpense authA bodyA)).2.expenses := by
    simp only [handle, sent, authenticated_ok hA, Option.map_some', Option.some.injEq]
      at hcreated ⊢
    obtain ⟨ht, ha, he⟩ := addExpense_status_201 envA s a bodyA hcreated
    rw [he, addExpense_ok envA s a bodyA ht ha]
    simp
  refine ⟨hmem, hnot _, ?_⟩
  intro r hr
  refine ⟨?_, ?_, hnot _, ?_⟩
  · rcases hr with rfl | rfl
    · simp only [handle, sent, authenticated_ok hU, updateExpense]
      cases envU.err1 with
      | some m => exact hmem
      | none => exact mem_updateExpenseRow_of_ne hmem hEmail
    · simp only [handle, sent, authenticated_ok hU, deleteExpense]
      cases envU.err1 with
      | some m => exact hmem
      | none => exact mem_deleteExpenseRow_of_ne hmem hEmail
  · rcases hr with rfl | rfl
    · simp only [handle, sent, authenticated_ok hU, updateExpense]
      cases envU.err1 with
      | some m => exact List.filter_sublist _
      | none => exact others_sublist_updateExpenseRow _ _ _ _ _ _ _
    · simp only [handle, sent, authenticated_ok hU, deleteExpense]
      cases envU.err1 with
      | some m => exact List.filter_sublist _
      | none => exact others_sublist_deleteExpenseRow _ _ _
  · intro hfresh
    have hnone : ∀ e ∈ (handle envA s (.addExpense authA bodyA)).2.expenses,
        ¬ (e.id = (createdExpense envA s a bodyA).id ∧ e.email = b.email) := by
      simp only [handle, sent, authenticated_ok hA, Option.map_some', Option.some.injEq]
        at hcreated ⊢
      obtain ⟨ht, ha, he⟩ := addExpense_status_201 envA s a bodyA hcreated
      rw [he, addExpense_ok envA s a bodyA ht ha]
      intro e hmem
      simp only [List.mem_append, List.mem_singleton] at hmem
      rcases hmem with hmem | rfl
      · exact fun h => hfresh e hmem h.1
      · exact fun h => hEmail h.2
    rcases hr with rfl | rfl
    · simp only [handle, sent, authenticated_ok hU, updateExpense]
      cases envU.err1 with
      | some m => rfl
      | none => exact updateExpenseRow_of_none _ _ _ _ _ _ _ hnone
    · simp only [handle, sent, authenticated_ok hU, deleteExpense]
      cases envU.err1 with
      | some m => rfl
      | none => exact deleteExpenseRow_of_none _ _ _ hnone

theorem non_owner_isolation_witness :
    authenticateUser (sampleEnv none).jwt (some "a.b.c") = .ok alice ∧
      authenticateUser (sampleEnv none).jwt (some "d.e.f") = .ok bob ∧
      alice.email ≠ bob.email ∧
      Option.map Response.status
        (handle (sampleEnv none) Store.empty (.addExpense (some "a.b.c") coffee)).1
          = some 201 ∧
      createdExpense (sampleEnv none) Store.empty alice coffee
        ∈ (handle (sampleEnv none)
            (handle (sampleEnv none) Store.empty (.addExpense (some "a.b.c") coffee)).2
            (.deleteExpense (some "d.e.f") 1)).2.expenses :=
  have hA : authenticateUser (sampleEnv none).jwt (some "a.b.c") = .ok alice := by decide
  have hB : authenticateUser (sampleEnv none).jwt (some "d.e.f") = .ok bob := by decide
  have hne : alice.email ≠ bob.email := by decide
  have hc : Option.map Response.status
      (handle (sampleEnv none) Store.empty (.addExpense (some "a.b.c") coffee)).1
        = some 201 := by
    rw [sample_add_coffee]
    rfl
  ⟨hA, hB, hne, hc,
    ((non_owner_isolation (sampleEnv none) (sampleEnv none) (sampleEnv none) Store.empty
      (some "a.b.c") (some "d.e.f") alice bob coffee coffee hA hB hB hne hc).2.2
        (.deleteExpense (some "d.e.f") 1) (Or.inr rfl)).1⟩

/-! ## The `Bearer` prefix -/

theorem splitChars_of_not_mem (sep : Char) (cs : List Char) (h : sep ∉ cs) :
    splitChars sep cs = [cs] := by
  induction cs with
  | nil => rfl
  | cons c cs ih =>
    have hc : c ≠ sep := fun e => h (by simp [e])
    have hcs : sep ∉ cs := fun e => h (List.mem_cons_of_mem _ e)
    simp [splitChars, hc, ih hcs]

theorem splitChars_append_sep (sep : Char) (pre rest : List Char) (h : sep ∉ pre) :
    splitChars sep (pre ++ sep :: rest) = pre :: splitChars sep rest := by
  induction pre with
  | nil => simp [splitChars]
  | cons c cs ih =>
    have hc : c ≠ sep := fun e => h (by simp [e])
    have hcs : sep ∉ cs := fun e => h (List.mem_cons_of_mem _ e)
    simp [splitChars, hc, ih hcs]

theorem bearer_data (t : String) :
    ("Bearer " ++ t).data = ['B', 'e', 'a', 'r', 'e', 'r'] ++ ' ' :: t.data := by
  rw [String.data_append]
  rfl

theorem startsWith_bearer_append (t : String) : startsWith ("Bearer " ++ t) "Bearer " = true := by
  unfold startsWith
  rw [String.data_append, List.isPrefixOf_iff_prefix]
  exact List.prefix_append _ _

theorem split_bearer_append (t : String) (h : ' ' ∉ t.data) :
    (split ("Bearer " ++ t) ' ')[1]? = some t := by
  unfold split
  rw [bearer_data, splitChars_append_sep ' ' _ _ (by decide), splitChars_of_not_mem ' ' _ h]
  rfl

theorem startsWith_bearer_false (t : String) (h : ' ' ∉ t.data) :
    startsWith t "Bearer " = false := by
  unfold startsWith
  rw [Bool.eq_false_iff]
  intro hp
  rw [List.isPrefixOf_iff_prefix] at hp
  obtain ⟨r, hr⟩ := hp
  apply h
  rw [← hr]
  exact List.mem_append_left r (by decide)

theorem extractedToken_bearer (t : String) (h : ' ' ∉ t.data) :
    extractedToken ("Bearer " ++ t) = some t := by
  unfold extractedToken
  rw [startsWith_bearer_append, if_pos rfl, split_bearer_append t h]

theorem extractedToken_plain (t : String) (h : ' ' ∉ t.data) :
    extractedToken t = some t := by
  unfold extractedToken
  rw [startsWith_bearer_false t h]
  rfl

/-- C5, the claim as stated fails for tokens that hold a space.  With a
verifier that accepts the token "a.b.c" (and neither "Bearer" nor a string with
a space in it): for t = "a.b.c x" the header "Bearer a.b.c x" is let through as
the identity of "a.b.c" while the header "a.b.c x" is rejected; for
t = "Bearer a.b.c" the header "Bearer Bearer a.b.c" is rejected while the
header "Bearer a.b.c" is let through. -/
theorem bearer_prefix_differs_with_space :
    authenticateUser sampleJwt (some ("Bearer " ++ "a.b.c x")) = .ok alice ∧
      authenticateUser sampleJwt (some "a.b.c x")
        = .error ⟨401, .error "Invalid token"⟩ ∧
      authenticateUser sampleJwt (some ("Bearer " ++ "Bearer a.b.c"))
        = .error ⟨401, .error "Invalid token"⟩ ∧
      authenticateUser sampleJwt (some "Bearer a.b.c") = .ok alice := by
  decide

/-- C5, amended: for every non-empty token string `t` that holds no space,
`authenticateUser` gives the same outcome for the header `"Bearer " ++ t` as
for the header `t`: the outcome of `jwt.verify` on `t`, which is either the
answer 401 "Invalid token" with the handler not run, or the decoded identity
handed to the handler.  When the header is absent or empty the answer is 401
"Unauthorized - No Token Provided" and the handler does not run. -/
theorem bearer_prefix_same_outcome (jwt : Jwt) (t : String) (hne : t ≠ "")
    (hsp : ' ' ∉ t.data) :
    authenticateUser jwt (some ("Bearer " ++ t)) = authenticateUser jwt (some t) ∧
      (jwt.verify t = none →
        ∀ (s : Store) (handler : Identity → Response × Store),
          authenticated jwt (some ("Bearer " ++ t)) s handler
              = (⟨401, .error "Invalid token"⟩, s) ∧
            authenticated jwt (some t) s handler = (⟨401, .error "Invalid token"⟩, s)) ∧
      (∀ user, jwt.verify t = some user →
        ∀ (s : Store) (handler : Identity → Response × Store),
          authenticated jwt (some ("Bearer " ++ t)) s handler = handler user ∧
            authenticated jwt (some t) s handler = handler user) ∧
      ∀ (s : Store) (handler : Identity → Response × Store),
        authenticated jwt none s handler
            = (⟨401, .error "Unauthorized - No Token Provided"⟩, s) ∧
          authenticated jwt (some "") s handler
            = (⟨401, .error "Unauthorized - No Token Provided"⟩, s) := by
  have hb : "Bearer " ++ t ≠ "" := by
    intro h
    have := congrArg String.data h
    rw [bearer_data] at this
    simp at this
  have h1 : authenticateUser jwt (some ("Bearer " ++ t))
      = match jwt.verify t with
        | none => .error ⟨401, .error "Invalid token"⟩
        | some decoded => .ok decoded := by
    simp only [authenticateUser, if_neg hb, extractedToken_bearer t hsp, Option.some_bind]
  have h2 : authenticateUser jwt (some t)
      = match jwt.verify t with
        | none => .error ⟨401, .error "Invalid token"⟩
        | some decoded => .ok decoded := by
    simp only [authenticateUser, if_neg hne, extractedToken_plain t hsp, Option.some_bind]
  refine ⟨h1.trans h2.symm, ?_, ?_, ?_⟩
  · intro hv s handler
    rw [hv] at h1 h2
    exact ⟨authenticated_error h1 s handler, authenticated_error h2 s handler⟩
  · intro user hv s handler
    rw [hv] at h1 h2
    exact ⟨authenticated_ok h1 s handler, authenticated_ok h2 s handler⟩
  · intro s handler
    exact ⟨rfl, rfl⟩

theorem bearer_prefix_same_outcome_witness :
    "a.b.c" ≠ "" ∧ ' ' ∉ "a.b.c".data ∧
      authenticateUser sampleJwt (some ("Bearer " ++ "a.b.c"))
        = authenticateUser sampleJwt (some "a.b.c") :=
  ⟨by decide, by decide,
    (bearer_prefix_same_outcome sampleJwt "a.b.c" (by decide) (by decide)).1⟩

/-! ## Login -/

theorem strTruthy_some {x : String} (h : x ≠ "") : strTruthy (some x) = true := by
  simp [strTruthy, h]

theorem truthy_str {x : String} (h : x ≠ "") : (JsVal.str x).truthy = true := by
  simp [JsVal.truthy, h]

theorem selectUsersByEmail_first (s : Store) (email : String) (before : List User) (u : User)
    (after : List User) (hs : s.users = before ++ u :: after)
    (hb : ∀ v ∈ before, v.email ≠ email) (hu : u.email = email) :
    selectUsersByEmail s email = u :: after.filter (fun v => v.email = email) := by
  have hnil : before.filter (fun v => v.email = email) = [] := by
    rw [List.filter_eq_nil_iff]
    intro v hv
    simpa using hb v hv
  simp [selectUsersByEmail, hs, List.filter_append, hnil, List.filter_cons, hu]

theorem selectUsersByEmail_nil (s : Store) (email : String)
    (h : ∀ u ∈ s.users, u.email ≠ email) : selectUsersByEmail s email = [] := by
  unfold selectUsersByEmail
  rw [List.filter_eq_nil_iff]
  intro v hv
  simpa using h v hv

theorem selectUsersWhereEmail_str (sql : Sql) (s : Store) (email : String) :
    selectUsersWhereEmail sql s (.str email) = selectUsersByEmail s email := rfl

theorem login_store (sql : Sql) (jwt : Jwt) (bc : Bcrypt) (s : Store) (body : LoginBody)
    (err : Option String) : (login sql jwt bc s body err).2 = s := by
  unfold login
  split <;> rfl

/-- C4, at the failing input: with the user alice@x.io stored, `POST /login`
with that email and the number 12345 as password passes the guard, finds the
user, and then sends no response at all (`bcrypt.compare` rejects a password
that is not a string and nothing handles the rejection), where 401 "Invalid
credentials" is due.  The same request with the string "12345" is answered
401. -/
theorem login_numeric_password_no_response :
    handle (sampleEnv none) ⟨[⟨1, "alice", "alice@x.io", "$2a$10$secret"⟩], [], 2, 1⟩
        (.login ⟨.str "alice@x.io", .num 12345⟩)
      = (none, ⟨[⟨1, "alice", "alice@x.io", "$2a$10$secret"⟩], [], 2, 1⟩) ∧
    handle (sampleEnv none) ⟨[⟨1, "alice", "alice@x.io", "$2a$10$secret"⟩], [], 2, 1⟩
        (.login ⟨.str "alice@x.io", .str "12345"⟩)
      = (some ⟨401, .error "Invalid credentials"⟩,
          ⟨[⟨1, "alice", "alice@x.io", "$2a$10$secret"⟩], [], 2, 1⟩) := by
  decide

/-- For every store that runs the query and holds a user with the submitted
email: a password that is truthy and not a string (a number, `true`, an array,
an object) gets no response. -/
theorem login_no_response_of_not_string (env : Env) (s : Store) (email : String)
    (password : JsVal) (u : User) (rest : List User)
    (herr : env.err1 = none) (he : email ≠ "") (hp : password.truthy = true)
    (hstr : ∀ p, password ≠ .str p)
    (hsel : selectUsersByEmail s email = u :: rest) :
    handle env s (.login ⟨.str email, password⟩) = (none, s) := by
  simp only [handle, login, loginUser, truthy_str he, hp, herr, selectUsersWhereEmail_str,
    hsel]
  cases password with
  | str p => exact absurd rfl (hstr p)
  | _ => rfl

/-- What `POST /login` does on a body whose email and password are strings: it
never changes the store (for any body); when the store runs the query it
answers 400 when email or password is falsy; otherwise 400 "User not found"
when no user has that email; otherwise, for the first stored user with that
email, 401 "Invalid credentials" when `bcrypt.compare` of the password with the
stored hash is false, and else 200 with that user's username and the token
`jwt.sign` of exactly that user's id, email and username. -/
theorem login_with_strings (env : Env) (s : Store) (body : LoginBody) :
    (handle env s (.login body)).2 = s ∧
      (body.email.truthy = false ∨ body.password.truthy = false →
        (handle env s (.login body)).1 = some ⟨400, .error "All fields are required"⟩) ∧
      (env.err1 = none →
        ∀ email password, body.email = .str email → body.password = .str password →
          email ≠ "" → password ≠ "" →
          ((∀ u ∈ s.users, u.email ≠ email) →
            (handle env s (.login body)).1 = some ⟨400, .error "User not found"⟩) ∧
          ∀ before u after, s.users = before ++ u :: after →
            (∀ v ∈ before, v.email ≠ email) → u.email = email →
            (env.bcrypt.compare password u.password = false →
              (handle env s (.login body)).1 = some ⟨401, .error "Invalid credentials"⟩) ∧
            (env.bcrypt.compare password u.password = true →
              (handle env s (.login body)).1
                  = some ⟨200, .login "Login successful"
                      (env.jwt.sign ⟨u.id, u.email, u.username⟩) u.username⟩)) := by
  refine ⟨login_store _ _ _ _ _ _, ?_, ?_⟩
  · intro h
    simp only [handle, login, loginUser]
    rcases h with h | h <;> simp [h]
  · intro herr email password hbe hbp hne hnp
    have he := truthy_str hne
    have hp := truthy_str hnp
    constructor
    · intro hnone
      simp [handle, login, loginUser, hbe, hbp, he, hp, herr, selectUsersWhereEmail_str,
        selectUsersByEmail_nil s email hnone]
    · intro before u after hs hb hu
      have hsel := selectUsersByEmail_first s email before u after hs hb hu
      refine ⟨?_, ?_⟩
      · intro hc
        simp [handle, login, loginUser, hbe, hbp, he, hp, herr, selectUsersWhereEmail_str,
          hsel, hc]
      · intro hc
        simp [handle, login, loginUser, hbe, hbp, he, hp, herr, selectUsersWhereEmail_str,
          hsel, hc, generateToken]

/-! ## Registration -/

theorem register_ok (bc : Bcrypt) (s : Store) (username e password : String)
    (hu : username ≠ "") (he : e ≠ "") (hp : password ≠ "")
    (hfresh : ∀ u ∈ s.users, u.email ≠ e) :
    register bc s ⟨some username, some e, some password⟩ none none
      = (⟨200, .message "Registration successful!"⟩,
          insertUser s username e (bc.hash password)) := by
  simp [register, strTruthy_some hu, strTruthy_some he, strTruthy_some hp,
    selectUsersByEmail_nil s e hfresh]

theorem register_exists (bc : Bcrypt) (s : Store) (username e password : String)
    (hu : username ≠ "") (he : e ≠ "") (hp : password ≠ "")
    (hex : ∃ u ∈ s.users, u.email = e) (err2 : Option String) :
    register bc s ⟨some username, some e, some password⟩ none err2
      = (⟨400, .error "User already exists"⟩, s) := by
  have hpos : (selectUsersByEmail s e).length > 0 := by
    obtain ⟨u, hu, hue⟩ := hex
    apply List.length_pos_of_mem (a := u)
    simp [selectUsersByEmail, hu, hue]
  simp [register, strTruthy_some hu, strTruthy_some he, strTruthy_some hp, hpos]

theorem authenticated_users (jwt : Jwt) (auth : Option String) (s : Store)
    (handler : Identity → Response × Store)
    (h : ∀ u, (handler u).2.users = s.users) :
    (authenticated jwt auth s handler).2.users = s.users := by
  unfold authenticated
  split
  · rfl
  · exact h _

theorem handle_users_grow (env : Env) (s : Store) (r : Request) :
    ∃ added, (handle env s r).2.users = s.users ++ added := by
  have same : ∀ {s2 : Store}, s2.users = s.users → ∃ added, s2.users = s.users ++ added :=
    fun h => ⟨[], by simp [h]⟩
  cases r with
  | register body =>
    simp only [handle, sent, register]
    split
    · exact same rfl
    · split
      · exact same rfl
      · split
        · exact same rfl
        · split
          · exact same rfl
          · exact ⟨_, rfl⟩
  | login body => exact same (by rw [handle, login_store])
  | user auth =>
    refine same (authenticated_users _ _ _ _ fun u => ?_)
    unfold getUser
    split
    · rfl
    · dsimp only
      split <;> rfl
  | addExpense auth body =>
    refine same (authenticated_users _ _ _ _ fun u => ?_)
    unfold addExpense
    split
    · rfl
    · split <;> rfl
  | expenses auth =>
    refine same (authenticated_users _ _ _ _ fun u => ?_)
    unfold getExpenses
    split <;> rfl
  | updateExpense auth id body =>
    refine same (authenticated_users _ _ _ _ fun u => ?_)
    unfold updateExpense
    split <;> rfl
  | deleteExpense auth id =>
    refine same (authenticated_users _ _ _ _ fun u => ?_)
    unfold deleteExpense
    split <;> rfl
  | lastExpense auth =>
    refine same (authenticated_users _ _ _ _ fun u => ?_)
    unfold lastExpense
    split <;> rfl

theorem run_users_grow (s : Store) (reqs : List (Env × Request)) :
    ∃ added, (run s reqs).users = s.users ++ added := by
  induction reqs generalizing s with
  | nil => exact ⟨[], by simp [run]⟩
  | cons x rest ih =>
    obtain ⟨env, r⟩ := x
    obtain ⟨a1, h1⟩ := handle_users_grow env s r
    obtain ⟨a2, h2⟩ := ih (handle env s r).2
    exact ⟨a1 ++ a2, by rw [run, h2, h1, List.append_assoc]⟩

/-- C3, the claim as stated fails for the empty email: on the empty store,
where no user has email "", a first `POST /register` with a non-empty username
and password and the email "" answers 400 and adds no user. -/
theorem register_empty_email_rejected :
    handle (sampleEnv none) Store.empty (.register ⟨some "alice", some "", some "secret"⟩)
      = (some ⟨400, .error "All fields are required"⟩, Store.empty) := by
  decide

/-- C3, amended: for every store in which no user has the non-empty email `e`
and all non-empty usernames and passwords, when the store runs both
statements the first `POST /register` with email `e` answers 200 with the
success message and adds exactly one user, with that username and email and
with `bcrypt.hash` of the submitted password as stored password (which is not
the plaintext whenever the hash differs from its input); after any further
sequence of requests, every `POST /register` with the same email `e`, any
non-empty username and password, answers 400 "User already exists" and leaves
the store unchanged. -/
theorem register_contract (env : Env) (s : Store) (username e password : String)
    (hu : username ≠ "") (he : e ≠ "") (hp : password ≠ "")
    (hfresh : ∀ u ∈ s.users, u.email ≠ e)
    (h1 : env.err1 = none) (h2 : env.err2 = none) :
    handle env s (.register ⟨some username, some e, some password⟩)
        = (some ⟨200, .message "Registration successful!"⟩,
            { s with
              users := s.users ++ [⟨s.nextUserId, username, e, env.bcrypt.hash password⟩]
              nextUserId := s.nextUserId + 1 }) ∧
      (env.bcrypt.hash password ≠ password →
        ∀ u ∈ (handle env s (.register ⟨some username, some e, some password⟩)).2.users,
          u.email = e → u.password ≠ password) ∧
      ∀ (reqs : List (Env × Request)) (env2 : Env) (username2 password2 : String),
        username2 ≠ "" → password2 ≠ "" → env2.err1 = none →
        handle env2
            (run (handle env s (.register ⟨some username, some e, some password⟩)).2 reqs)
            (.register ⟨some username2, some e, some password2⟩)
          = (some ⟨400, .error "User already exists"⟩,
              run (handle env s (.register ⟨some username, some e, some password⟩)).2 reqs) := by
  have hreg : handle env s (.register ⟨some username, some e, some password⟩)
      = (some ⟨200, .message "Registration successful!"⟩,
          insertUser s username e (env.bcrypt.hash password)) := by
    simp only [handle, sent, h1, h2]
    rw [register_ok env.bcrypt s username e password hu he hp hfresh]
  refine ⟨hreg, ?_, ?_⟩
  · intro hh u hmem hue
    rw [hreg] at hmem
    simp only [insertUser, List.mem_append, List.mem_singleton] at hmem
    rcases hmem with hmem | rfl
    · exact absurd hue (hfresh u hmem)
    · exact hh
  · intro reqs env2 username2 password2 hu2 hp2 herr
    obtain ⟨added, hadd⟩ := run_users_grow
      (handle env s (.register ⟨some username, some e, some password⟩)).2 reqs
    have hex : ∃ u ∈ (run (handle env s
        (.register ⟨some username, some e, some password⟩)).2 reqs).users, u.email = e := by
      refine ⟨⟨s.nextUserId, username, e, env.bcrypt.hash password⟩, ?_, rfl⟩
      rw [hadd, hreg]
      simp [insertUser]
    have hout : ∀ (s2 : Store) (b : RegisterBody),
        handle env2 s2 (.register b) = sent (register env2.bcrypt s2 b env2.err1 env2.err2) :=
      fun _ _ => rfl
    rw [hout, herr, register_exists env2.bcrypt _ username2 e password2 hu2 he hp2 hex _]
    rfl

theorem register_contract_witness :
    "alice" ≠ "" ∧ "alice@x.io" ≠ "" ∧ "secret" ≠ "" ∧
      (∀ u ∈ Store.empty.users, u.email ≠ "alice@x.io") ∧
      (sampleEnv none).err1 = none ∧ (sampleEnv none).err2 = none ∧
      handle (sampleEnv none) Store.empty
          (.register ⟨some "alice", some "alice@x.io", some "secret"⟩)
        = (some ⟨200, .message "Registration successful!"⟩,
            ⟨[⟨1, "alice", "alice@x.io", "$2a$10$secret"⟩], [], 2, 1⟩) :=
  have hf : ∀ u ∈ Store.empty.users, u.email ≠ "alice@x.io" := by
    intro u hu
    simp [Store.empty] at hu
  ⟨by decide, by decide, by decide, hf, rfl, rfl,
    (register_contract (sampleEnv none) Store.empty "alice" "alice@x.io" "secret"
      (by decide) (by decide) (by decide) hf rfl rfl).1⟩

/-! ## Reachable states -/

theorem sampleSys_reachable : Reachable sampleSys :=
  have h1 : Reachable (next (sampleEnv none) ⟨Store.empty, []⟩
      (.register ⟨some "alice", some "alice@x.io", some "secret"⟩)) :=
    Reachable.step _ _ _ Reachable.init (fun auth user h => by cases h)
  have h2 : Reachable (next (sampleEnv none) (next (sampleEnv none) ⟨Store.empty, []⟩
      (.register ⟨some "alice", some "alice@x.io", some "secret"⟩))
      (.login ⟨.str "alice@x.io", .str "secret"⟩)) :=
    Reachable.step _ _ _ h1 (fun auth user h => by cases h)
  Reachable.step _ _ _ h2 (fun auth user h hok => by
    cases h
    have hu : authenticateUser (sampleEnv none).jwt (some "Bearer a.b.c") = .ok alice := by
      decide
    rw [hu] at hok
    cases hok
    decide)

theorem sampleSys_store :
    sampleSys.store
      = ⟨[⟨1, "alice", "alice@x.io", "$2a$10$secret"⟩],
          [⟨1, "alice@x.io", none, .str "Coffee", .num (9 / 2), .null, 1000⟩], 2, 2⟩ := by
  have h1 : authenticateUser sampleJwt (some "Bearer a.b.c") = .ok alice := by decide
  have h0 : (next (sampleEnv none) (next (sampleEnv none) ⟨Store.empty, []⟩
      (.register ⟨some "alice", some "alice@x.io", some "secret"⟩))
      (.login ⟨.str "alice@x.io", .str "secret"⟩)).store
        = ⟨[⟨1, "alice", "alice@x.io", "$2a$10$secret"⟩], [], 2, 1⟩ := by
    decide
  simp only [sampleSys]
  rw [next, h0]
  simp [handle, sent, authenticated_ok h1, addExpense, coffee, JsVal.truthy, insertExpense,
    newExpense, valueCell, JsVal.bound, JsVal.inner, alice, JsVal.orNull, sampleEnv]

/-- C10, at the failing input: after a registration, a login and an expense
added with the token of that login, the owner sends `PUT /update-expense/1`
with the object (title "x", email "ghost@nowhere.io") as title.  The driver
writes the object as `title = 'x', email = 'ghost@nowhere.io'` into the `SET`
list, so the statement also assigns column `email`: in the reachable state
that results, expense 1 is owned by an email that no stored user has. -/
theorem update_assigns_foreign_email :
    Reachable ghostSys ∧
      ghostSys.store.users = [⟨1, "alice", "alice@x.io", "$2a$10$secret"⟩] ∧
      ghostSys.store.expenses
        = [⟨1, "ghost@nowhere.io", none, .num 0, .num 5, .null, 1000⟩] ∧
      ∃ e ∈ ghostSys.store.expenses, ∀ u ∈ ghostSys.store.users, u.email ≠ e.email := by
  have hissued : alice ∈ sampleSys.issued := by decide
  have hreach : Reachable ghostSys :=
    Reachable.step _ _ _ sampleSys_reachable (fun auth user h hok => by
      cases h
      have hu : authenticateUser (sampleEnv none).jwt (some "Bearer a.b.c") = .ok alice := by
        decide
      rw [hu] at hok
      cases hok
      exact hissued)
  have h1 : authenticateUser sampleJwt (some "Bearer a.b.c") = .ok alice := by decide
  have hstore : ghostSys.store
      = ⟨[⟨1, "alice", "alice@x.io", "$2a$10$secret"⟩],
          [⟨1, "ghost@nowhere.io", none, .num 0, .num 5, .null, 1000⟩], 2, 2⟩ := by
    simp only [ghostSys, next]
    rw [sampleSys_store]
    simp [handle, sent, authenticated_ok h1, updateExpense, updateExpenseRow, setRow, setItem,
      Expense.assign, Bound.isOther, JsVal.bound, JsVal.inner, JsVal.fieldPairs, alice,
      sampleEnv, sampleSql]
  refine ⟨hreach, by rw [hstore], by rw [hstore], ?_⟩
  rw [hstore]
  exact ⟨_, List.mem_singleton.mpr rfl, by simp⟩

theorem setItem_value_email (sql : Sql) (e : Expense) (column : String) (c : Cell)
    (h : column = "title" ∨ column = "amount" ∨ column = "quantity") :
    (setItem sql e column (.value c)).email = e.email := by
  rcases h with rfl | rfl | rfl <;> simp [setItem, Expense.assign]

theorem setRow_email_of_plain (sql : Sql) (e : Expense) (title amount quantity : JsVal)
    (ht : ∃ c, title.bound = .value c) (ha : ∃ c, amount.bound = .value c)
    (hq : ∃ c, quantity.bound = .value c) :
    (setRow sql e title amount quantity).email = e.email := by
  obtain ⟨ct, ht⟩ := ht
  obtain ⟨ca, ha⟩ := ha
  obtain ⟨cq, hq⟩ := hq
  simp only [setRow, ht, ha, hq, Bound.isOther, Bool.or_self, Bool.false_eq_true, if_false]
  rw [setItem_value_email _ _ _ _ (Or.inr (Or.inr rfl)),
    setItem_value_email _ _ _ _ (Or.inr (Or.inl rfl)),
    setItem_value_email _ _ _ _ (Or.inl rfl)]

theorem inv_of_same_users {sys : Sys} (hinv : Inv sys) (s2 : Store)
    (hu : s2.users = sys.store.users)
    (he : ∀ e ∈ s2.expenses, ∃ u ∈ sys.store.users, u.email = e.email) :
    Inv ⟨s2, sys.issued⟩ := by
  refine ⟨?_, ?_, ?_⟩
  · intro e hmem
    simpa [hu] using he e hmem
  · simpa [hu] using hinv.2.1
  · intro c hc
    simpa [hu] using hinv.2.2 c hc

theorem inv_authenticated {sys : Sys} (hinv : Inv sys) (jwt : Jwt) (auth : Option String)
    (handler : Identity → Response × Store)
    (h : ∀ user, authenticateUser jwt auth = .ok user →
      (handler user).2.users = sys.store.users ∧
        ∀ e ∈ (handler user).2.expenses, ∃ u ∈ sys.store.users, u.email = e.email) :
    Inv ⟨(authenticated jwt auth sys.store handler).2, sys.issued⟩ := by
  unfold authenticated
  split
  · exact inv_of_same_users hinv _ rfl hinv.1
  · next user hok => exact inv_of_same_users hinv _ (h user hok).1 (h user hok).2

theorem mem_of_mem_selectUsersWhereEmail {sql : Sql} {s : Store} {email : JsVal} {u : User}
    (h : u ∈ selectUsersWhereEmail sql s email) : u ∈ s.users := by
  unfold selectUsersWhereEmail at h
  split at h
  · exact (List.mem_filter.mp h).1
  · exact (List.mem_filter.mp h).1

theorem loginUser_ok_mem {sql : Sql} {bc : Bcrypt} {s : Store} {body : LoginBody}
    {err : Option String} {user : User} (h : loginUser sql bc s body err = .ok user) :
    user ∈ s.users := by
  unfold loginUser at h
  split at h
  · cases h
  · split at h
    · cases h
    · split at h
      · cases h
      · next u rest hsel =>
        have hm : u ∈ s.users :=
          mem_of_mem_selectUsersWhereEmail (by rw [hsel]; exact List.mem_cons_self _ _)
        split at h
        · dsimp only at h
          split at h
          · cases h
          · cases h
            exact hm
        · cases h

/-- One plain request keeps the invariant: a request that binds no object and
no array to the `SET` list of the `UPDATE`. -/
theorem inv_next {env : Env} {sys : Sys} {r : Request} (hinv : Inv sys)
    (hadm : Admissible env sys r) (hplain : r.plain) : Inv (next env sys r) := by
  have hissued : ∀ user auth, r.authorization? = some auth →
      authenticateUser env.jwt auth = .ok user → ∃ u ∈ sys.store.users, u.email = user.email :=
    fun user auth h1 h2 => hinv.2.2 user (hadm auth user h1 h2)
  cases r with
  | register body =>
    simp only [next, issuedBy, List.append_nil, handle, sent, register]
    split
    · exact hinv
    · split
      · exact hinv
      · split
        · exact hinv
        · next hlen =>
          split
          · exact hinv
          · have hnil : ∀ u ∈ sys.store.users, u.email ≠ body.email.getD "" := by
              intro u hu he
              apply hlen
              apply List.length_pos_of_mem (a := u)
              simp [selectUsersByEmail, hu, he]
            refine ⟨?_, ?_, ?_⟩
            · intro e hmem
              obtain ⟨u, hu, hue⟩ := hinv.1 e hmem
              exact ⟨u, List.mem_append_left _ hu, hue⟩
            · simp only [insertUser]
              rw [List.pairwise_append]
              refine ⟨hinv.2.1, List.pairwise_singleton _ _, ?_⟩
              intro u hu v hv
              rw [List.mem_singleton] at hv
              subst hv
              exact hnil u hu
            · intro c hc
              obtain ⟨u, hu, hue⟩ := hinv.2.2 c hc
              exact ⟨u, List.mem_append_left _ hu, hue⟩
  | login body =>
    simp only [next, handle, login_store, issuedBy]
    refine ⟨hinv.1, hinv.2.1, ?_⟩
    intro c hc
    rw [List.mem_append] at hc
    rcases hc with hc | hc
    · exact hinv.2.2 c hc
    · split at hc
      · cases hc
      · next user hok =>
        rw [List.mem_singleton] at hc
        subst hc
        exact ⟨user, loginUser_ok_mem hok, rfl⟩
  | user auth =>
    simp only [next, issuedBy, List.append_nil, handle, sent]
    refine inv_authenticated hinv _ _ _ fun user _ => ?_
    have : (getUser sys.store user env.err1).2 = sys.store := by
      unfold getUser
      split
      · rfl
      · dsimp only
        split <;> rfl
    rw [this]
    exact ⟨rfl, hinv.1⟩
  | addExpense auth body =>
    simp only [next, issuedBy, List.append_nil, handle, sent]
    refine inv_authenticated hinv _ _ _ fun user hok => ?_
    unfold addExpense
    split
    · exact ⟨rfl, hinv.1⟩
    · split
      · exact ⟨rfl, hinv.1⟩
      · refine ⟨rfl, ?_⟩
        intro e hmem
        simp only [insertExpense, List.mem_append, List.mem_singleton] at hmem
        rcases hmem with hmem | rfl
        · exact hinv.1 e hmem
        · exact hissued user auth rfl hok
  | expenses auth =>
    simp only [next, issuedBy, List.append_nil, handle, sent]
    refine inv_authenticated hinv _ _ _ fun user _ => ?_
    unfold getExpenses
    split <;> exact ⟨rfl, hinv.1⟩
  | updateExpense auth id body =>
    simp only [next, issuedBy, List.append_nil, handle, sent]
    refine inv_authenticated hinv _ _ _ fun user _ => ?_
    unfold updateExpense
    split
    · exact ⟨rfl, hinv.1⟩
    · refine ⟨rfl, ?_⟩
      intro e hmem
      simp only [updateExpenseRow, List.mem_map] at hmem
      obtain ⟨e0, h0, rfl⟩ := hmem
      obtain ⟨u, hu, hue⟩ := hinv.1 e0 h0
      refine ⟨u, hu, ?_⟩
      rw [hue]
      split
      · exact (setRow_email_of_plain _ _ _ _ _ hplain.1 hplain.2.1 hplain.2.2).symm
      · rfl
  | deleteExpense auth id =>
    simp only [next, issuedBy, List.append_nil, handle, sent]
    refine inv_authenticated hinv _ _ _ fun user _ => ?_
    unfold deleteExpense
    split
    · exact ⟨rfl, hinv.1⟩
    · refine ⟨rfl, ?_⟩
      intro e hmem
      simp only [deleteExpenseRow] at hmem
      exact hinv.1 e (List.mem_filter.mp hmem).1
  | lastExpense auth =>
    simp only [next, issuedBy, List.append_nil, handle, sent]
    refine inv_authenticated hinv _ _ _ fun user _ => ?_
    unfold lastExpense
    split <;> exact ⟨rfl, hinv.1⟩

theorem inv_of_plainReachable {sys : Sys} (h : PlainReachable sys) : Inv sys := by
  induction h with
  | init => exact ⟨by simp [Store.empty], by simp [Store.empty], by simp⟩
  | step env sys r _ hadm hplain ih => exact inv_next ih hadm hplain

/-- The object bound to the `SET` list is the only way out of the invariant: in
every state reachable by plain requests whose tokens come from logins, every
expense's owner email is the email of a stored user and no two stored users
share an email; and any request at all leaves every stored user record in
place and unchanged. -/
theorem plain_reachable_invariant (sys : Sys) (h : PlainReachable sys) :
    (∀ e ∈ sys.store.expenses, ∃ u ∈ sys.store.users, u.email = e.email) ∧
      sys.store.users.Pairwise (fun u v => u.email ≠ v.email) ∧
      ∀ (env : Env) (r : Request),
        ∃ added, (next env sys r).store.users = sys.store.users ++ added := by
  have hinv := inv_of_plainReachable h
  exact ⟨hinv.1, hinv.2.1, fun env r => handle_users_grow env sys.store r⟩

end Expensaver
